import Mathlib

/-!
Verification development for the course-catalog backend (Express/Mongoose/Redis).

Shallow embedding conventions:
* CSV rows are finite string maps, modelled as functions `String → Option String`
  (`none` = column absent, mirroring `undefined` in JS).
* JS numbers are modelled as `Int` (for `parseInt` results) and `ℚ` (for
  `parseFloat` results).  `NaN` is modelled as `Option.none` of the
  corresponding parse function; fields that can hold either `undefined` or a
  number-or-NaN are `Option (Option _)` (outer `none` = `undefined`, inner
  `none` = `NaN`).
* The MongoDB collection is a `List Course`; `findOne`/`findOneAndUpdate`
  first-match semantics are modelled explicitly.
* The Redis cache is an association list keyed by the serialized key string;
  `set` prepends (shadowing earlier entries, i.e. overwrite semantics).
-/

/-- Is a JS string value truthy?  `undefined` and the empty string are falsy. -/
def truthyS (v : Option String) : Bool :=
  match v with
  | none => false
  | some s => if s = "" then false else true

/-- JS `a || b` for string-or-undefined values. -/
def jsOrS (a b : Option String) : Option String :=
  if truthyS a then a else b

/-- JS `a || d` where `d` is a string literal default (always yields a string). -/
def jsOrSD (a : Option String) (d : String) : String :=
  if truthyS a then a.getD "" else d

/-- Is a JS number truthy?  `NaN` (modelled `none`) and `0` are falsy. -/
def truthyZ (v : Option Int) : Bool :=
  match v with
  | none => false
  | some z => if z = 0 then false else true

/-- Is a JS number truthy, rational version. -/
def truthyQ (v : Option ℚ) : Bool :=
  match v with
  | none => false
  | some q => if q = 0 then false else true

/-- JS `a || b` on numbers (NaN and 0 fall through). -/
def jsOrZ (a b : Option Int) : Option Int :=
  if truthyZ a then a else b

/-- JS `a || d` with an integer literal default. -/
def jsOrZD (a : Option Int) (d : Int) : Int :=
  if truthyZ a then a.getD 0 else d

/-- JS `a || b` on rational numbers. -/
def jsOrQ (a b : Option ℚ) : Option ℚ :=
  if truthyQ a then a else b

/-- JS `a || d` with a rational literal default. -/
def jsOrQD (a : Option ℚ) (d : ℚ) : ℚ :=
  if truthyQ a then a.getD 0 else d

/-- Digit test for the decimal parsers. -/
def isDigitCh (c : Char) : Bool :=
  '0' ≤ c && c ≤ '9'

/-- Numeric value of a decimal digit character. -/
def digitVal (c : Char) : Nat :=
  c.toNat - '0'.toNat

/-- Take the longest prefix of decimal digits. -/
def takeDigits : List Char → List Char × List Char
  | [] => ([], [])
  | c :: cs =>
    if isDigitCh c then
      let p := takeDigits cs
      (c :: p.1, p.2)
    else
      ([], c :: cs)

/-- Value of a digit list read as a decimal natural number. -/
def digitsToNat (ds : List Char) : Nat :=
  ds.foldl (fun acc c => 10 * acc + digitVal c) 0

/-- Strip leading JS whitespace. -/
def stripWs : List Char → List Char
  | [] => []
  | c :: cs => if c = ' ' || c = '\t' || c = '\n' || c = '\r' then stripWs cs else c :: cs

/-- Split an optional leading sign from a character list; `true` = negative. -/
def splitSign : List Char → Bool × List Char
  | [] => (false, [])
  | c :: cs =>
    if c = '-' then (true, cs)
    else if c = '+' then (false, cs)
    else (false, c :: cs)

/-- JS `parseInt(s)` (radix 10): skip whitespace, optional sign, longest digit
run; `NaN` (modelled `none`) if there is no digit.  Parsing stops at the first
non-digit character. -/
def jsParseInt (s : String) : Option Int :=
  let cs := stripWs s.toList
  let sg := splitSign cs
  let ds := takeDigits sg.2
  if ds.1.isEmpty then none
  else
    let n : Int := Int.ofNat (digitsToNat ds.1)
    some (if sg.1 then -n else n)

/-- JS `parseFloat(s)` restricted to plain decimal literals (optional sign,
integer part, optional fractional part); scientific notation is outside the
modelled input domain.  `NaN` is modelled as `none`. -/
def jsParseFloat (s : String) : Option ℚ :=
  let cs := stripWs s.toList
  let sg := splitSign cs
  let intp := takeDigits sg.2
  match intp.2 with
  | '.' :: rest =>
    let frac := takeDigits rest
    if intp.1.isEmpty && frac.1.isEmpty then none
    else
      let ip : ℚ := (digitsToNat intp.1 : ℚ)
      let fp : ℚ := (digitsToNat frac.1 : ℚ) / ((10 : ℚ) ^ frac.1.length)
      let v := ip + fp
      some (if sg.1 then -v else v)
  | _ =>
    if intp.1.isEmpty then none
    else
      let v : ℚ := (digitsToNat intp.1 : ℚ)
      some (if sg.1 then -v else v)

/-- Does `hay` contain `needle` as a contiguous substring (on char lists)? -/
def hasSubCh (needle hay : List Char) : Bool :=
  match hay with
  | [] => needle.isEmpty
  | _ :: t => (needle.isPrefixOf hay) || hasSubCh needle t

/-- ASCII lower-casing of one character. -/
def lowerCh (c : Char) : Char :=
  if 'A' ≤ c && c ≤ 'Z' then Char.ofNat (c.toNat + 32) else c

/-- Case-insensitive substring test, modelling a case-insensitive regex match
of the literal pattern `needle` against `hay` (ASCII case folding). -/
def containsCI (hay needle : String) : Bool :=
  hasSubCh (needle.toList.map lowerCh) (hay.toList.map lowerCh)

/-- JS `String.split` with a one-character separator, on char lists
(`"a;;b".split(';') = ["a", "", "b"]`). -/
def splitOnCh (sep : Char) : List Char → List (List Char)
  | [] => [[]]
  | c :: t =>
    match splitOnCh sep t with
    | [] => [[]]
    | g :: gs => if c = sep then [] :: g :: gs else (c :: g) :: gs

/-- JS `String.trim`: strip leading and trailing whitespace. -/
def trimStr (s : String) : String :=
  String.mk ((stripWs (stripWs s.toList).reverse).reverse)

/-- JS `s.split(sep).map(x => x.trim())` on a truthy raw value, `[]` otherwise;
this is the list-field coercion used by the CSV ingestion (the route only uses
one-character separators). -/
def splitTrim (v : Option String) (sep : Char) : List String :=
  if truthyS v then (splitOnCh sep (v.getD "").toList).map (fun l => trimStr (String.mk l)) else []

/-- A parsed CSV row: a finite map from column name to raw string value
(`none` = column absent). -/
def Row : Type := String → Option String

/-- Course record as stored in the `courses` collection (fields and types from
`backend/models/Course.js`, values as produced by the upload transform). -/
structure Course where
  uniqueId : String
  courseName : Option String
  courseCode : Option String
  universityCode : Option String
  universityName : Option String
  departmentSchool : Option String
  disciplineMajor : Option String
  specialization : Option String
  courseLevel : String
  overviewDescription : Option String
  summary : Option String
  prerequisites : List String
  learningOutcomes : List String
  teachingMethodology : String
  assessmentMethods : List String
  credits : Int
  durationMonths : Int
  languageOfInstruction : String
  syllabusUrl : Option String
  keywords : List String
  professorName : Option String
  professorEmail : Option String
  officeLocation : Option String
  openForIntake : Option String
  admissionOpenYears : String
  attendanceType : String
  firstYearTuitionFee : ℚ
  totalTuitionFee : ℚ
  tuitionFeeCurrency : String
  applicationFeeAmount : ℚ
  applicationFeeCurrency : String
  applicationFeeWaived : Bool
  requiredApplicationMaterials : String
  twelfthGradeRequirement : Option String
  undergraduateDegreeRequirement : Option String
  minimumIELTSScore : Option (Option ℚ)
  minimumTOEFLScore : Option (Option ℚ)
  minimumPTEScore : Option (Option ℚ)
  minimumDuolingoScore : Option (Option ℚ)
  minimumCambridgeEnglishScore : Option String
  otherEnglishTestsAccepted : Option String
  greRequired : Bool
  greScore : Option String
  gmatRequired : Bool
  gmatScore : Option String
  satRequired : Bool
  satScore : Option String
  actRequired : Bool
  actScore : Option String
  waiverOptions : Option String
  partnerCourse : Bool
  ftRanking2024 : Option (Option Int)
  acceptanceRate : Option (Option ℚ)
  domesticApplicationDeadline : String
  internationalApplicationDeadline : String
  courseUrl : String
deriving DecidableEq

/-- `parseInt` applied to a possibly-absent raw value (`parseInt(undefined)`
is `NaN`). -/
def pIntF (v : Option String) : Option Int :=
  match v with
  | none => none
  | some s => jsParseInt s

/-- `parseFloat` applied to a possibly-absent raw value. -/
def pFloatF (v : Option String) : Option ℚ :=
  match v with
  | none => none
  | some s => jsParseFloat s

/-- `row.x ? parseFloat(row.x) : undefined` — the optional-score coercion. -/
def optScore (v : Option String) : Option (Option ℚ) :=
  if truthyS v then some (pFloatF v) else none

/-- `row.x ? parseInt(row.x) : undefined` — the optional-ranking coercion. -/
def optRank (v : Option String) : Option (Option Int) :=
  if truthyS v then some (pIntF v) else none

/-- `row.x === 'true'` — the boolean coercion. -/
def isTrueStr (v : Option String) : Bool :=
  if v = some "true" then true else false

/-- The `uniqueId` fallback chain: `row.uniqueId || row.course_id ||
course_<Date.now()>_<processedCount>`. -/
def uniqueIdOf (r : Row) (n now : Nat) : String :=
  (jsOrS (r "uniqueId")
    (jsOrS (r "course_id")
      (some ("course_" ++ toString now ++ "_" ++ toString n)))).getD ""

/-- The CSV-row-to-course transform from the upload route (`courseData`
construction), with `n` the 1-based row number (`processedCount`) and `now`
the upload timestamp (`Date.now()`). -/
def transform (r : Row) (n now : Nat) : Course :=
  { uniqueId := uniqueIdOf r n now
    courseName := jsOrS (r "courseName") (jsOrS (r "title") (r "name"))
    courseCode := jsOrS (r "courseCode") (r "code")
    universityCode := jsOrS (r "universityCode") (r "university_code")
    universityName := jsOrS (r "universityName") (r "university_name")
    departmentSchool := jsOrS (r "departmentSchool") (jsOrS (r "department") (r "school"))
    disciplineMajor := jsOrS (r "disciplineMajor") (jsOrS (r "discipline") (r "major"))
    specialization := r "specialization"
    courseLevel := jsOrSD (jsOrS (r "courseLevel") (r "level")) "Undergraduate"
    overviewDescription := jsOrS (r "overviewDescription") (r "description")
    summary := jsOrS (r "summary") (jsOrS (r "overviewDescription") (r "description"))
    prerequisites := splitTrim (r "prerequisites") ';'
    learningOutcomes := splitTrim (r "learningOutcomes") ';'
    teachingMethodology := jsOrSD (jsOrS (r "teachingMethodology") (r "methodology")) "Not specified"
    assessmentMethods := splitTrim (r "assessmentMethods") ';'
    credits := jsOrZD (pIntF (r "credits")) 0
    durationMonths := jsOrZD (jsOrZ (pIntF (r "durationMonths")) (pIntF (r "duration"))) 12
    languageOfInstruction := jsOrSD (jsOrS (r "languageOfInstruction") (r "language")) "English"
    syllabusUrl := jsOrS (r "syllabusUrl") (r "syllabus_url")
    keywords := splitTrim (r "keywords") ','
    professorName := jsOrS (r "professorName") (r "instructor")
    professorEmail := jsOrS (r "professorEmail") (r "instructor_email")
    officeLocation := r "officeLocation"
    openForIntake := r "openForIntake"
    admissionOpenYears := jsOrSD (r "admissionOpenYears") "2024"
    attendanceType := jsOrSD (jsOrS (r "attendanceType") (r "attendance")) "Full-time"
    firstYearTuitionFee := jsOrQD (jsOrQ (pFloatF (r "firstYearTuitionFee")) (pFloatF (r "tuition"))) 0
    totalTuitionFee := jsOrQD (jsOrQ (pFloatF (r "totalTuitionFee")) (pFloatF (r "tuition"))) 0
    tuitionFeeCurrency := jsOrSD (jsOrS (r "tuitionFeeCurrency") (r "currency")) "USD"
    applicationFeeAmount := jsOrQD (pFloatF (r "applicationFeeAmount")) 0
    applicationFeeCurrency := jsOrSD (r "applicationFeeCurrency") "USD"
    applicationFeeWaived := isTrueStr (r "applicationFeeWaived")
    requiredApplicationMaterials := jsOrSD (r "requiredApplicationMaterials") "Standard application materials"
    twelfthGradeRequirement := r "twelfthGradeRequirement"
    undergraduateDegreeRequirement := r "undergraduateDegreeRequirement"
    minimumIELTSScore := optScore (r "minimumIELTSScore")
    minimumTOEFLScore := optScore (r "minimumTOEFLScore")
    minimumPTEScore := optScore (r "minimumPTEScore")
    minimumDuolingoScore := optScore (r "minimumDuolingoScore")
    minimumCambridgeEnglishScore := r "minimumCambridgeEnglishScore"
    otherEnglishTestsAccepted := r "otherEnglishTestsAccepted"
    greRequired := isTrueStr (r "greRequired")
    greScore := r "greScore"
    gmatRequired := isTrueStr (r "gmatRequired")
    gmatScore := r "gmatScore"
    satRequired := isTrueStr (r "satRequired")
    satScore := r "satScore"
    actRequired := isTrueStr (r "actRequired")
    actScore := r "actScore"
    waiverOptions := r "waiverOptions"
    partnerCourse := isTrueStr (r "partnerCourse")
    ftRanking2024 := optRank (r "ftRanking2024")
    acceptanceRate := optScore (r "acceptanceRate")
    domesticApplicationDeadline := jsOrSD (r "domesticApplicationDeadline") "2024-12-31"
    internationalApplicationDeadline := jsOrSD (r "internationalApplicationDeadline") "2024-12-31"
    courseUrl := jsOrSD (jsOrS (r "courseUrl") (r "url")) "#" }

/-- Allowed `courseLevel` enum values (from the Mongoose schema). -/
def courseLevels : List String :=
  ["Undergraduate", "Postgraduate", "Doctorate", "Diploma", "Certificate"]

/-- Allowed `attendanceType` enum values (from the Mongoose schema). -/
def attendanceTypes : List String :=
  ["Full-time", "Part-time", "Online"]

/-- Is an optional rational field holding `NaN`?  (Mongoose number casting
rejects `NaN`.) -/
def isNaNQ (v : Option (Option ℚ)) : Bool :=
  match v with
  | some none => true
  | _ => false

/-- Is an optional integer field holding `NaN`? -/
def isNaNZ (v : Option (Option Int)) : Bool :=
  match v with
  | some none => true
  | _ => false

/-- Mongoose save/update validation of a transformed course: required string
paths must be present and non-empty, enum paths constrained, and optional
number paths must not hold `NaN` (cast failure).  Returns the first failure
message, `none` on success. -/
def validateCourse (c : Course) : Option String :=
  if !truthyS c.courseName then some "Path courseName is required" else
  if !truthyS c.courseCode then some "Path courseCode is required" else
  if !truthyS c.universityCode then some "Path universityCode is required" else
  if !truthyS c.universityName then some "Path universityName is required" else
  if !truthyS c.departmentSchool then some "Path departmentSchool is required" else
  if !truthyS c.disciplineMajor then some "Path disciplineMajor is required" else
  if !truthyS c.overviewDescription then some "Path overviewDescription is required" else
  if !truthyS c.summary then some "Path summary is required" else
  if !(courseLevels.contains c.courseLevel) then some "courseLevel is not a valid enum value" else
  if !(attendanceTypes.contains c.attendanceType) then some "attendanceType is not a valid enum value" else
  if isNaNQ c.minimumIELTSScore then some "Cast to Number failed at minimumIELTSScore" else
  if isNaNQ c.minimumTOEFLScore then some "Cast to Number failed at minimumTOEFLScore" else
  if isNaNQ c.minimumPTEScore then some "Cast to Number failed at minimumPTEScore" else
  if isNaNQ c.minimumDuolingoScore then some "Cast to Number failed at minimumDuolingoScore" else
  if isNaNZ c.ftRanking2024 then some "Cast to Number failed at ftRanking2024" else
  if isNaNQ c.acceptanceRate then some "Cast to Number failed at acceptanceRate" else
  none

/-- Per-row ingestion error entry: `{row: processedCount, error: message,
data: row}`. -/
structure RowError where
  rowNumber : Nat
  message : String
  raw : Row

/-- Accumulated ingestion state over the row loop. -/
structure IngestState where
  db : List Course
  processed : Nat
  successful : Nat
  inserts : Nat
  errors : List RowError

/-- The `uniqueId` column of every stored course, in collection order. -/
def idsOf (db : List Course) : List String :=
  db.map (fun c => c.uniqueId)

/-- Replace the first record whose `uniqueId` matches (the semantics of
`findOneAndUpdate` given that every field is overwritten). -/
def replaceFirst : List Course → Course → List Course
  | [], _ => []
  | c :: t, d => if c.uniqueId = d.uniqueId then d :: t else c :: replaceFirst t d

/-- `findOne` + `findOneAndUpdate`-or-`save` upsert; the flag is `true` when a
new record was inserted. -/
def upsertCourse (db : List Course) (d : Course) : List Course × Bool :=
  if d.uniqueId ∈ idsOf db then (replaceFirst db d, false) else (db ++ [d], true)

/-- One iteration of the CSV row loop: bump `processedCount`, transform,
validate + upsert, on failure record `{rowNumber, message, rawRow}` and
continue. -/
def ingestStep (now : Nat) (s : IngestState) (r : Row) : IngestState :=
  let n := s.processed + 1
  let d := transform r n now
  match validateCourse d with
  | none =>
    let u := upsertCourse s.db d
    { db := u.1, processed := n, successful := s.successful + 1,
      inserts := s.inserts + (if u.2 then 1 else 0), errors := s.errors }
  | some m =>
    { db := s.db, processed := n, successful := s.successful,
      inserts := s.inserts, errors := s.errors ++ [⟨n, m, r⟩] }

/-- Sequentially process a list of rows from a given state. -/
def ingestRows (now : Nat) : List Row → IngestState → IngestState
  | [], s => s
  | r :: t, s => ingestRows now t (ingestStep now s r)

/-- Full CSV batch processing from the initial counters. -/
def uploadCsv (rows : List Row) (now : Nat) (db0 : List Course) : IngestState :=
  ingestRows now rows { db := db0, processed := 0, successful := 0, inserts := 0, errors := [] }

/-- Response summary of the upload route. -/
structure UploadSummary where
  totalProcessed : Nat
  successful : Nat
  errors : Nat
deriving DecidableEq

/-- Observable outcome of the upload route, with the file-cleanup effect made
explicit. -/
structure UploadOutcome where
  status : Nat
  fileDeleted : Bool
  summary : UploadSummary
  errorsShown : List RowError

/-- The upload endpoint after CSV parsing.  `batchFailure` injects a
batch-level exception thrown between the row loop and the response (e.g. a
store-level failure surfacing outside the per-row try/catch): the catch block
answers 500 and does not reach `fs.unlinkSync`, while the success path deletes
the uploaded file and answers with the summary and the first 10 errors. -/
def uploadEndpoint (rows : List Row) (now : Nat) (db0 : List Course)
    (batchFailure : Option String) : UploadOutcome × List Course :=
  let s := uploadCsv rows now db0
  match batchFailure with
  | none =>
    ({ status := 200, fileDeleted := true,
       summary := { totalProcessed := s.processed, successful := s.successful,
                    errors := s.errors.length },
       errorsShown := s.errors.take 10 }, s.db)
  | some _ =>
    ({ status := 500, fileDeleted := false,
       summary := { totalProcessed := 0, successful := 0, errors := 0 },
       errorsShown := [] }, s.db)

/-- Raw query parameters of `GET /courses` (all arrive as strings; `none` =
parameter absent). -/
structure ListParams where
  query : Option String
  universityCode : Option String
  courseLevel : Option String
  disciplineMajor : Option String
  attendanceType : Option String
  minTuition : Option String
  maxTuition : Option String
  limit : Option String
  page : Option String
deriving DecidableEq

/-- Join strings with a separator (JS `Array.join`). -/
def joinStr (sep : String) : List String → String
  | [] => ""
  | [x] => x
  | x :: y :: t => x ++ sep ++ joinStr sep (y :: t)

/-- One JSON member for a string-valued field; absent (`undefined`) fields are
omitted, as `JSON.stringify` does. -/
def jsonField (name : String) (v : Option String) : List String :=
  match v with
  | none => []
  | some s => ["\"" ++ name ++ "\":\"" ++ s ++ "\""]

/-- JSON member for a field with a numeric destructuring default: when the
parameter is absent the default number is serialized unquoted. -/
def jsonFieldD (name : String) (v : Option String) (d : String) : List String :=
  match v with
  | none => ["\"" ++ name ++ "\":" ++ d]
  | some s => ["\"" ++ name ++ "\":\"" ++ s ++ "\""]

/-- `JSON.stringify` of the listing parameters, in the object-literal field
order of the route (the cache key body). -/
def stringifyListParams (p : ListParams) : String :=
  "\x7b" ++ joinStr ","
    (jsonField "query" p.query ++ jsonField "universityCode" p.universityCode ++
     jsonField "courseLevel" p.courseLevel ++ jsonField "disciplineMajor" p.disciplineMajor ++
     jsonField "attendanceType" p.attendanceType ++ jsonField "minTuition" p.minTuition ++
     jsonField "maxTuition" p.maxTuition ++ jsonFieldD "limit" p.limit "50" ++
     jsonFieldD "page" p.page "1") ++ "\x7d"

/-- Response pagination block of the listing route. -/
structure Pagination where
  page : Int
  limit : Int
  total : Nat
  pages : Nat
deriving DecidableEq

/-- Listing response payload. -/
structure ListResult where
  courses : List Course
  pagination : Pagination
  fromCache : Bool
deriving DecidableEq

/-- The course-listing cache: serialized-key/value store (reads see the most
recent write for a key, as in Redis). -/
abbrev CourseCache : Type := List (String × ListResult)

/-- Cache read. -/
def cacheLookup (cache : CourseCache) (key : String) : Option ListResult :=
  (cache.find? (fun e => if e.1 = key then true else false)).map (fun e => e.2)

/-- Mongo `$text` search modelled as case-insensitive containment over the
text-index fields (courseName, overviewDescription, disciplineMajor,
keywords). -/
def textIndexMatch (q : String) (c : Course) : Bool :=
  (match c.courseName with | some s => containsCI s q | none => false) ||
  (match c.overviewDescription with | some s => containsCI s q | none => false) ||
  (match c.disciplineMajor with | some s => containsCI s q | none => false) ||
  c.keywords.any (fun k => containsCI k q)

/-- The conjunction of listing filters built by the route: each filter is added
only when the raw parameter is truthy; `mn`/`mx` are the parsed tuition
bounds (inclusive). -/
def matchesSearch (p : ListParams) (mn mx : Option ℚ) (c : Course) : Bool :=
  (if truthyS p.query then textIndexMatch ((p.query).getD "") c else true) &&
  (if truthyS p.universityCode then decide (c.universityCode = p.universityCode) else true) &&
  (if truthyS p.courseLevel then decide (some c.courseLevel = p.courseLevel) else true) &&
  (if truthyS p.disciplineMajor then decide (c.disciplineMajor = p.disciplineMajor) else true) &&
  (if truthyS p.attendanceType then decide (some c.attendanceType = p.attendanceType) else true) &&
  (match mn with | some q => decide (q ≤ c.firstYearTuitionFee) | none => true) &&
  (match mx with | some q => decide (c.firstYearTuitionFee ≤ q) | none => true)

/-- Byte-order comparison on char lists (BSON string comparison). -/
def charListLe : List Char → List Char → Bool
  | [], _ => true
  | _ :: _, [] => false
  | a :: s, b :: t => if a < b then true else if b < a then false else charListLe s t

/-- BSON ordering on an optional string field (missing sorts first). -/
def optStrLe : Option String → Option String → Prop
  | none, _ => True
  | some _, none => False
  | some s, some t => charListLe s.toList t.toList = true

instance : DecidableRel optStrLe
  | none, _ => isTrue trivial
  | some _, none => isFalse (fun h => h)
  | some s, some t => inferInstanceAs (Decidable (charListLe s.toList t.toList = true))

/-- Sort key of the no-text-query listing: `{ courseName: 1 }`. -/
def nameLe (a b : Course) : Prop := optStrLe a.courseName b.courseName

instance : DecidableRel nameLe :=
  fun a b => inferInstanceAs (Decidable (optStrLe a.courseName b.courseName))

/-- Result ordering of the listing query: by courseName ascending without a
text query; with a text query Mongo orders by relevance score, modelled as
stored order. -/
def sortListing (q : Option String) (l : List Course) : List Course :=
  if truthyS q then l else List.insertionSort nameLe l

/-- `Math.ceil(a / b)` on naturals. -/
def natCeilDiv (a b : Nat) : Nat := (a + b - 1) / b

/-- Parse an optional tuition bound: absent = no bound; a present value that
does not parse (NaN) leaves the modelled input domain. -/
def parseBound : Option String → Option (Option ℚ)
  | none => some none
  | some s =>
    match jsParseFloat s with
    | some q => some (some q)
    | none => none

/-- Effective page number: destructuring default `1`, else `parseInt`. -/
def pageOf (p : ListParams) : Option Int :=
  match p.page with
  | none => some 1
  | some s => jsParseInt s

/-- Effective page size: destructuring default `50`, else `parseInt`. -/
def limitOf (p : ListParams) : Option Int :=
  match p.limit with
  | none => some 50
  | some s => jsParseInt s

/-- Filter, sort, skip/limit and count of the listing route (cache-miss path).
Non-numeric or non-positive page/limit values (whose NaN arithmetic the route
leaves unspecified) are outside the modelled domain (`none`). -/
def computeListing (p : ListParams) (db : List Course) : Option ListResult :=
  match pageOf p, limitOf p, parseBound p.minTuition, parseBound p.maxTuition with
  | some pg, some lim, some mn, some mx =>
    if 1 ≤ pg ∧ 1 ≤ lim then
      let filtered := db.filter (matchesSearch p mn mx)
      let sorted := sortListing p.query filtered
      let skip := ((pg - 1) * lim).toNat
      let cs := (sorted.drop skip).take lim.toNat
      some { courses := cs,
             pagination := { page := pg, limit := lim, total := filtered.length,
                             pages := natCeilDiv filtered.length lim.toNat },
             fromCache := false }
    else none
  | _, _, _, _ => none

/-- `GET /courses`: look up `courses:<stringified params>`; on hit return the
cached payload with `fromCache: true`; on miss compute, store the payload
(which carries `fromCache: false`) and return it. -/
def getCourses (p : ListParams) (cache : CourseCache) (db : List Course) :
    Option (ListResult × CourseCache) :=
  match cacheLookup cache ("courses:" ++ stringifyListParams p) with
  | some v => some ({ v with fromCache := true }, cache)
  | none =>
    match computeListing p db with
    | some r => some (r, ("courses:" ++ stringifyListParams p, r) :: cache)
    | none => none

/-- `$ifNull` on an optional-integer field (`undefined`/missing replaced by the
default, `NaN` kept). -/
def qIfNullZ (v : Option (Option Int)) (d : Int) : Option Int :=
  match v with
  | none => some d
  | some x => x

/-- `$ifNull` on an optional-rational field. -/
def qIfNullQ (v : Option (Option ℚ)) (d : ℚ) : Option ℚ :=
  match v with
  | none => some d
  | some x => x

/-- The `$addFields` popularity score of `GET /recommendations/popular`:
`$add [ $ifNull [ftRanking2024, 1000], $multiply [$ifNull [acceptanceRate, 50], -1],
$cond [partnerCourse = true, 100, 0] ]`; `NaN` (modelled `none`) propagates. -/
def popularityScore (c : Course) : Option ℚ :=
  match qIfNullZ c.ftRanking2024 1000, qIfNullQ c.acceptanceRate 50 with
  | some r, some a => some ((r : ℚ) + a * (-1) + (if c.partnerCourse then (100 : ℚ) else 0))
  | _, _ => none

/-- Mongo ascending comparison on the score (`NaN` sorts below all numbers). -/
def scoreLeB : Option ℚ → Option ℚ → Bool
  | none, _ => true
  | some _, none => false
  | some a, some b => decide (a ≤ b)

/-- Sort relation of `$sort { popularityScore: 1 }`. -/
def popLe (a b : Course) : Prop :=
  scoreLeB (popularityScore a) (popularityScore b) = true

instance : DecidableRel popLe :=
  fun a b =>
    inferInstanceAs (Decidable (scoreLeB (popularityScore a) (popularityScore b) = true))

instance : IsTotal Course popLe :=
  ⟨fun a b => by
    unfold popLe
    rcases popularityScore a with _ | x <;> rcases popularityScore b with _ | y <;>
      simp [scoreLeB]
    exact le_total x y⟩

instance : IsTrans Course popLe :=
  ⟨fun a b c hab hbc => by
    unfold popLe at hab hbc ⊢
    rcases ha : popularityScore a with _ | x <;> rcases hb : popularityScore b with _ | y <;>
      rcases hc : popularityScore c with _ | z <;>
      rw [ha, hb] at hab <;> rw [hb, hc] at hbc <;> simp [scoreLeB] at hab hbc ⊢
    exact le_trans hab hbc⟩

/-- Projection block of the popular-courses aggregation. -/
structure PopularCourse where
  id : String
  title : Option String
  university : Option String
  level : String
  duration : Int
  tuition : ℚ
  description : Option String
  ranking : Option (Option Int)
  acceptanceRate : Option (Option ℚ)
  courseUrl : String
deriving DecidableEq

/-- `$project` of the popular-courses aggregation. -/
def projectPopular (c : Course) : PopularCourse :=
  { id := c.uniqueId, title := c.courseName, university := c.universityName,
    level := c.courseLevel, duration := c.durationMonths,
    tuition := c.firstYearTuitionFee, description := c.overviewDescription,
    ranking := c.ftRanking2024, acceptanceRate := c.acceptanceRate,
    courseUrl := c.courseUrl }

/-- The popular-courses aggregation: add the popularity score, sort ascending,
take 10, project. -/
def popularCoursesOf (db : List Course) : List PopularCourse :=
  ((List.insertionSort popLe db).take 10).map projectPopular

/-- Modelled from the spec: popularity score = (ranking value, default 1000 if
absent) − (acceptance rate, default 50 if absent) − (100 if partner course
else 0).  Stated for comparison with the code's `popularityScore`. -/
def specPopularityScore (c : Course) : ℚ :=
  (match c.ftRanking2024 with | some (some r) => (r : ℚ) | _ => 1000)
  - (match c.acceptanceRate with | some (some a) => a | _ => 50)
  - (if c.partnerCourse then 100 else 0)

/-- Recommendation request preferences (validated body of
`POST /recommendations`). -/
structure Preferences where
  topics : List String
  skillLevel : Option String
  duration : Option String
  maxTuition : Option ℚ

/-- A mock ("AI") recommendation entry. -/
structure MockCourse where
  id : String
  title : String
  university : String
  level : String
  duration : String
  tuition : ℚ
  matchScore : ℚ
  reasoning : String
deriving DecidableEq

/-- The fixed candidate pool of the mock Gemini service. -/
def mockCourses : List MockCourse :=
  [{ id := "ai_ml_001", title := "Advanced Machine Learning",
     university := "Stanford University", level := "Postgraduate",
     duration := "12 months", tuition := 45000, matchScore := 95,
     reasoning := "Perfect for AI/ML enthusiasts with strong mathematical background" },
   { id := "data_science_001", title := "Data Science and Analytics",
     university := "MIT", level := "Postgraduate",
     duration := "18 months", tuition := 52000, matchScore := 92,
     reasoning := "Comprehensive program covering data analysis and visualization" },
   { id := "web_dev_001", title := "Full-Stack Web Development",
     university := "UC Berkeley", level := "Undergraduate",
     duration := "24 months", tuition := 38000, matchScore := 88,
     reasoning := "Hands-on program with modern web technologies" },
   { id := "cybersecurity_001", title := "Cybersecurity and Network Security",
     university := "Carnegie Mellon University", level := "Postgraduate",
     duration := "16 months", tuition := 48000, matchScore := 85,
     reasoning := "Specialized program for security professionals" },
   { id := "business_tech_001", title := "Business Technology Management",
     university := "Harvard University", level := "Postgraduate",
     duration := "20 months", tuition := 55000, matchScore := 82,
     reasoning := "Combines business strategy with technology implementation" }]

/-- `durationMap = \x7b short: 12, medium: 18, long: 24 \x7d`. -/
def durationMap (d : String) : Option Int :=
  if d = "short" then some 12
  else if d = "medium" then some 18
  else if d = "long" then some 24
  else none

/-- Descending-match-score sort relation (`(a, b) => b.matchScore - a.matchScore`,
stable). -/
def msGe (a b : MockCourse) : Prop := b.matchScore ≤ a.matchScore

instance : DecidableRel msGe :=
  fun a b => inferInstanceAs (Decidable (b.matchScore ≤ a.matchScore))

/-- The mock recommendation generator: filter the pool by truthy `maxTuition`
(keep `tuition <= maxTuition`) and by `duration` (keep candidates whose
`parseInt` duration is at most the mapped month threshold), sort by match
score descending, take 5. -/
def generateMockRecommendations (p : Preferences) : List MockCourse :=
  let f1 :=
    match p.maxTuition with
    | some m => if m = 0 then mockCourses else mockCourses.filter (fun c => decide (c.tuition ≤ m))
    | none => mockCourses
  let f2 :=
    match p.duration with
    | some d =>
      if d = "" then f1
      else
        match durationMap d with
        | some maxD =>
          f1.filter (fun c =>
            match jsParseInt c.duration with
            | some v => decide (v ≤ maxD)
            | none => false)
        | none => f1
    | none => f1
  (List.insertionSort msGe f2).take 5

/-- Response of the mock Gemini service. -/
structure AiResponse where
  recommendations : List MockCourse
  reasoning : String

/-- `generateRecommendations`: the mock pool result plus a reasoning string
interpolating the topics and the (defaulted) skill level. -/
def generateRecommendations (p : Preferences) : AiResponse :=
  { recommendations := generateMockRecommendations p,
    reasoning := "Based on your interest in " ++ joinStr ", " p.topics ++
      ", I\x27ve recommended courses that align with your " ++
      p.skillLevel.getD "intermediate" ++ " skill level and preferences." }

/-- The `$or` topic filter of `POST /recommendations`: keywords and
disciplineMajor via `$in` (exact, case-sensitive membership), courseName and
overviewDescription via a case-insensitive regex alternation of the literal
topics (= substring match of some topic). -/
def topicMatchCode (topics : List String) (c : Course) : Bool :=
  c.keywords.any (fun k => topics.contains k) ||
  (match c.disciplineMajor with | some d => topics.contains d | none => false) ||
  (match c.courseName with | some nm => topics.any (fun t => containsCI nm t) | none => false) ||
  (match c.overviewDescription with | some ds => topics.any (fun t => containsCI ds t) | none => false)

/-- `Course.find($or ...).limit(10)`: matching courses in stored order, capped
at 10. -/
def findMatchingCourses (db : List Course) (topics : List String) : List Course :=
  (db.filter (topicMatchCode topics)).take 10

/-- Modelled from the spec: a course matches when its keywords, discipline,
name, or description match any requested topic by case-insensitive substring
match.  Stated for comparison with the code's `topicMatchCode`. -/
def specTopicMatch (topics : List String) (c : Course) : Bool :=
  c.keywords.any (fun k => topics.any (fun t => containsCI k t)) ||
  (match c.disciplineMajor with | some d => topics.any (fun t => containsCI d t) | none => false) ||
  (match c.courseName with | some nm => topics.any (fun t => containsCI nm t) | none => false) ||
  (match c.overviewDescription with | some ds => topics.any (fun t => containsCI ds t) | none => false)

/-- Aggregate statistics block of `GET /courses/stats/summary` (`none` models
the empty aggregation result `stats[0] || \x7b\x7d`). -/
structure StatsSummary where
  totalCourses : Nat
  avgTuition : ℚ
  minTuition : ℚ
  maxTuition : ℚ
deriving DecidableEq

/-- `$group` over the whole collection: count, average/min/max first-year
tuition. -/
def statsSummary (db : List Course) : Option StatsSummary :=
  match db with
  | [] => none
  | c :: t =>
    let fees := (c :: t).map (fun x => x.firstYearTuitionFee)
    some { totalCourses := (c :: t).length,
           avgTuition := fees.sum / ((c :: t).length : ℚ),
           minTuition := fees.foldl min c.firstYearTuitionFee,
           maxTuition := fees.foldl max c.firstYearTuitionFee }

/-- Does a row supply a natural key (truthy `uniqueId` or `course_id`), so
that its generated-id fallback is never used? -/
def hasNaturalKey (r : Row) : Bool :=
  truthyS (r "uniqueId") || truthyS (r "course_id")

/-- Last element of `ds` carrying the given `uniqueId`, if any (the record an
upsert sequence leaves for that key). -/
def lastWrite : List Course → String → Option Course
  | [], _ => none
  | d :: t, u =>
    match lastWrite t u with
    | some e => some e
    | none => if d.uniqueId = u then some d else none

/-- Apply a sequence of upserts to a collection (the database effect of the
row loop restricted to its valid rows). -/
def applyUpserts : List Course → List Course → List Course
  | db, [] => db
  | db, d :: t => applyUpserts (upsertCourse db d).1 t

/-- Records appended by an upsert sequence: one per first occurrence of a key
not already seen, carrying the last write for that key. -/
def tailNew : List Course → List String → List Course
  | [], _ => []
  | d :: t, seen =>
    if d.uniqueId ∈ seen then tailNew t seen
    else ((lastWrite t d.uniqueId).getD d) :: tailNew t (seen ++ [d.uniqueId])

/-- Number of inserts (as opposed to updates) an upsert sequence performs. -/
def insertsOf : List Course → List Course → Nat
  | _, [] => 0
  | db, d :: t => (if d.uniqueId ∈ idsOf db then 0 else 1) + insertsOf (upsertCourse db d).1 t

/-- The transformed records of the rows that pass validation, with their
1-based row numbers starting after offset `p`. -/
def validData (now : Nat) : List Row → Nat → List Course
  | [], _ => []
  | r :: t, p =>
    let d := transform r (p + 1) now
    match validateCourse d with
    | none => d :: validData now t (p + 1)
    | some _ => validData now t (p + 1)

/-- The error entries the row loop records, with their 1-based row numbers
starting after offset `p`. -/
def expectedRowErrors (now : Nat) : List Row → Nat → List RowError
  | [], _ => []
  | r :: t, p =>
    match validateCourse (transform r (p + 1) now) with
    | some m => ⟨p + 1, m, r⟩ :: expectedRowErrors now t (p + 1)
    | none => expectedRowErrors now t (p + 1)

/-- A fully-populated valid course record used as the base of concrete test
fixtures. -/
def baseCourse : Course :=
  { uniqueId := "base", courseName := some "Base Course", courseCode := some "B100",
    universityCode := some "UNI", universityName := some "Test University",
    departmentSchool := some "School", disciplineMajor := some "Engineering",
    specialization := none, courseLevel := "Undergraduate",
    overviewDescription := some "An overview", summary := some "A summary",
    prerequisites := [], learningOutcomes := [], teachingMethodology := "Not specified",
    assessmentMethods := [], credits := 0, durationMonths := 12,
    languageOfInstruction := "English", syllabusUrl := none, keywords := [],
    professorName := none, professorEmail := none, officeLocation := none,
    openForIntake := none, admissionOpenYears := "2024", attendanceType := "Full-time",
    firstYearTuitionFee := 1000, totalTuitionFee := 1000, tuitionFeeCurrency := "USD",
    applicationFeeAmount := 0, applicationFeeCurrency := "USD", applicationFeeWaived := false,
    requiredApplicationMaterials := "Standard application materials",
    twelfthGradeRequirement := none, undergraduateDegreeRequirement := none,
    minimumIELTSScore := none, minimumTOEFLScore := none, minimumPTEScore := none,
    minimumDuolingoScore := none, minimumCambridgeEnglishScore := none,
    otherEnglishTestsAccepted := none, greRequired := false, greScore := none,
    gmatRequired := false, gmatScore := none, satRequired := false, satScore := none,
    actRequired := false, actScore := none, waiverOptions := none, partnerCourse := false,
    ftRanking2024 := none, acceptanceRate := none,
    domesticApplicationDeadline := "2024-12-31",
    internationalApplicationDeadline := "2024-12-31", courseUrl := "#" }

/-- Partner course with ranking 500 and acceptance rate 50. -/
def cPartner : Course :=
  { baseCourse with
    uniqueId := "A", partnerCourse := true,
    ftRanking2024 := some (some 500), acceptanceRate := some (some 50) }

/-- Non-partner course with the same ranking 500 and acceptance rate 50. -/
def cPlain : Course :=
  { baseCourse with
    uniqueId := "B", partnerCourse := false,
    ftRanking2024 := some (some 500), acceptanceRate := some (some 50) }

/-- Course whose only connection to the topic "machine learning" is the
differently-cased keyword "Machine Learning". -/
def cKeywordOnly : Course :=
  { baseCourse with
    uniqueId := "KW", courseName := some "Course X",
    overviewDescription := some "About stuff", disciplineMajor := some "Engineering",
    keywords := ["Machine Learning"] }

/-- Course matched through its name by the topic "ai". -/
def cNameMatch : Course :=
  { baseCourse with uniqueId := "NM", courseName := some "AI Basics" }

/-- A CSV row with the eight columns the validator requires, keyed by
`uniqueId`. -/
def mkRow (id nm : String) : Row := fun k =>
  if k = "uniqueId" then some id
  else if k = "courseName" then some nm
  else if k = "courseCode" then some "C100"
  else if k = "universityCode" then some "UNI"
  else if k = "universityName" then some "Test University"
  else if k = "departmentSchool" then some "Engineering School"
  else if k = "disciplineMajor" then some "Computer Science"
  else if k = "description" then some "A course description"
  else none

/-- A malformed row: the required `courseName` column (and its fallbacks) is
missing. -/
def rowNoName : Row := fun k =>
  if k = "courseName" then none else mkRow "u3" "ignored" k

/-- Five-row CSV batch: rows 1, 2, 4, 5 valid, row 3 malformed. -/
def csvRows : List Row :=
  [mkRow "u1" "Course One", mkRow "u2" "Course Two", rowNoName,
   mkRow "u4" "Course Four", mkRow "u5" "Course Five"]

/-- A valid row without `uniqueId`/`course_id`: its upsert key falls back to
the generated `course_<now>_<n>` id. -/
def rowKeyless : Row := fun k =>
  if k = "uniqueId" then none else mkRow "ignored" "Course K" k

/-- A valid row with a natural key. -/
def rowKeyed : Row := mkRow "w1" "Course W"

/-- The empty CSV row (every column absent). -/
def rEmptyRow : Row := fun _ => none

/-- A row whose `minimumIELTSScore` column is present but unparseable. -/
def rowBadScore : Row := fun k =>
  if k = "minimumIELTSScore" then some "abc" else none

/-- Listing request with no parameters. -/
def pAllNone : ListParams :=
  { query := none, universityCode := none, courseLevel := none,
    disciplineMajor := none, attendanceType := none, minTuition := none,
    maxTuition := none, limit := none, page := none }

/-- Listing payload for `pAllNone` over the empty collection. -/
def resEmptyList : ListResult :=
  { courses := [], pagination := { page := 1, limit := 50, total := 0, pages := 0 },
    fromCache := false }

/-- Listing request `?limit=101&page=1`. -/
def p101 : ListParams :=
  { query := none, universityCode := none, courseLevel := none,
    disciplineMajor := none, attendanceType := none, minTuition := none,
    maxTuition := none, limit := some "101", page := some "1" }

/-- A collection of 105 identical courses (for the pagination-bound check). -/
def db105 : List Course :=
  List.replicate 105 { baseCourse with courseName := some "c" }

theorem ingestRows_processed (now : Nat) (rows : List Row) : ∀ s : IngestState,
    (ingestRows now rows s).processed = s.processed + rows.length := by
  induction rows with
  | nil => intro s; simp [ingestRows]
  | cons r t ih =>
    intro s
    simp only [ingestRows]
    rw [ih]
    unfold ingestStep
    rcases hv : validateCourse (transform r (s.processed + 1) now) with _ | m <;>
      simp [hv] <;> omega

theorem ingestRows_successful (now : Nat) (rows : List Row) : ∀ s : IngestState,
    (ingestRows now rows s).successful =
      s.successful + (validData now rows s.processed).length := by
  induction rows with
  | nil => intro s; simp [ingestRows, validData]
  | cons r t ih =>
    intro s
    simp only [ingestRows]
    rw [ih]
    unfold ingestStep
    rcases hv : validateCourse (transform r (s.processed + 1) now) with _ | m <;>
      simp [hv, validData] <;> omega

theorem ingestRows_errors (now : Nat) (rows : List Row) : ∀ s : IngestState,
    (ingestRows now rows s).errors = s.errors ++ expectedRowErrors now rows s.processed := by
  induction rows with
  | nil => intro s; simp [ingestRows, expectedRowErrors]
  | cons r t ih =>
    intro s
    simp only [ingestRows]
    rw [ih]
    unfold ingestStep
    rcases hv : validateCourse (transform r (s.processed + 1) now) with _ | m <;>
      simp [hv, expectedRowErrors]

theorem ingestRows_db (now : Nat) (rows : List Row) : ∀ s : IngestState,
    (ingestRows now rows s).db = applyUpserts s.db (validData now rows s.processed) := by
  induction rows with
  | nil => intro s; simp [ingestRows, validData, applyUpserts]
  | cons r t ih =>
    intro s
    simp only [ingestRows]
    rw [ih]
    unfold ingestStep
    rcases hv : validateCourse (transform r (s.processed + 1) now) with _ | m <;>
      simp [hv, validData, applyUpserts]

theorem ingestRows_inserts (now : Nat) (rows : List Row) : ∀ s : IngestState,
    (ingestRows now rows s).inserts = s.inserts + insertsOf s.db (validData now rows s.processed) := by
  induction rows with
  | nil => intro s; simp [ingestRows, validData, insertsOf]
  | cons r t ih =>
    intro s
    simp only [ingestRows]
    rw [ih]
    unfold ingestStep
    rcases hv : validateCourse (transform r (s.processed + 1) now) with _ | m <;>
      simp [hv, validData, insertsOf, upsertCourse]
    · by_cases hmem : (transform r (s.processed + 1) now).uniqueId ∈ idsOf s.db <;>
        simp [hmem] <;> omega

theorem validData_expected_length (now : Nat) (rows : List Row) : ∀ p : Nat,
    (validData now rows p).length + (expectedRowErrors now rows p).length = rows.length := by
  induction rows with
  | nil => intro p; simp [validData, expectedRowErrors]
  | cons r t ih =>
    intro p
    rcases hv : validateCourse (transform r (p + 1) now) with _ | m <;>
      simp [validData, expectedRowErrors, hv] <;> rw [← ih (p + 1)] <;> omega

/-- C9: for every upload batch, `totalProcessed` equals `successful` plus the
number of recorded error entries, and the errors array in the response holds
at most 10 entries. -/
theorem upload_summary_invariant (rows : List Row) (now : Nat) (db0 : List Course) :
    (uploadEndpoint rows now db0 none).1.summary.totalProcessed =
      (uploadEndpoint rows now db0 none).1.summary.successful +
        (uploadEndpoint rows now db0 none).1.summary.errors ∧
    (uploadEndpoint rows now db0 none).1.errorsShown.length ≤ 10 := by
  constructor
  · show (uploadCsv rows now db0).processed =
      (uploadCsv rows now db0).successful + (uploadCsv rows now db0).errors.length
    unfold uploadCsv
    rw [ingestRows_processed, ingestRows_successful, ingestRows_errors]
    simp
    have := validData_expected_length now rows 0
    omega
  · show ((uploadCsv rows now db0).errors.take 10).length ≤ 10
    rw [List.length_take]
    exact min_le_left _ _

/-- C3: a failing row is recorded as `{rowNumber, errorMessage, rawRow}` and
processing continues with the next row (the error list is exactly the list of
failing rows, and every row lands in exactly one of the success count or the
error list); in particular the five-row CSV with one malformed row yields
`successful = 4`, one error entry for row 3, and the four valid rows
persisted. -/
theorem csv_row_error_isolation :
    (∀ (rows : List Row) (now : Nat) (db0 : List Course),
      (uploadCsv rows now db0).errors = expectedRowErrors now rows 0 ∧
      (uploadCsv rows now db0).processed = rows.length ∧
      (uploadCsv rows now db0).successful + (uploadCsv rows now db0).errors.length = rows.length) ∧
    (uploadCsv csvRows 0 []).successful = 4 ∧
    (uploadCsv csvRows 0 []).errors.length = 1 ∧
    (uploadCsv csvRows 0 []).errors.map (fun e => e.rowNumber) = [3] ∧
    (uploadCsv csvRows 0 []).db =
      [transform (mkRow "u1" "Course One") 1 0, transform (mkRow "u2" "Course Two") 2 0,
       transform (mkRow "u4" "Course Four") 4 0, transform (mkRow "u5" "Course Five") 5 0] := by
  refine ⟨fun rows now db0 => ⟨?_, ?_, ?_⟩, by decide, by decide, by decide, by decide⟩
  · show (ingestRows now rows _).errors = _
    rw [ingestRows_errors]
    simp
  · show (ingestRows now rows _).processed = _
    rw [ingestRows_processed]
    simp
  · show (ingestRows now rows _).successful + (ingestRows now rows _).errors.length = _
    rw [ingestRows_successful, ingestRows_errors]
    simp
    have := validData_expected_length now rows 0
    omega

/-- C8 counterexample: on a batch-level failure the response is the 500 path
and the uploaded file is not deleted, refuting deletion regardless of
outcome. -/
theorem upload_file_cleanup_cx :
    (uploadEndpoint [rowKeyed] 0 [] (some "connection lost")).1.status = 500 ∧
    (uploadEndpoint [rowKeyed] 0 [] (some "connection lost")).1.fileDeleted = false := by
  exact ⟨rfl, rfl⟩

/-- C8 amended: the uploaded file is deleted on the success path; on the
batch-level failure path (catch block) it is not deleted. -/
theorem upload_file_cleanup (rows : List Row) (now : Nat) (db0 : List Course)
    (bf : Option String) :
    (bf = none → (uploadEndpoint rows now db0 bf).1.fileDeleted = true) ∧
    (∀ m, bf = some m → (uploadEndpoint rows now db0 bf).1.fileDeleted = false) := by
  constructor
  · intro h; subst h; rfl
  · intro m h; subst h; rfl

/-- C8 witness: the amended cleanup behaviour at a concrete upload. -/
theorem upload_file_cleanup_witness :
    (uploadEndpoint [rowKeyed] 0 [] none).1.fileDeleted = true ∧
    (uploadEndpoint [rowKeyed] 0 [] (some "store failure")).1.fileDeleted = false :=
  ⟨(upload_file_cleanup [rowKeyed] 0 [] none).1 rfl,
   (upload_file_cleanup [rowKeyed] 0 [] (some "store failure")).2 "store failure" rfl⟩

/-- C7: a request with `limit=101` over a 105-course collection is served at
page size 101 (101 courses returned, `pagination.limit = 101`): the route
neither rejects nor clamps it, although the repo's own `courseSchemas.search`
declares `limit ≤ 100`. -/
theorem pagination_limit_served_unclamped :
    (getCourses p101 [] db105).map
      (fun rc => (rc.1.courses.length, rc.1.pagination.limit)) = some (101, 101) := by decide

/-- C10: the mock recommendation generator ignores `topics` and `skillLevel`:
two preference inputs agreeing on `maxTuition` and `duration` produce the same
recommendation list (same candidates, same order). -/
theorem mock_ai_noninterference (p q : Preferences)
    (hm : p.maxTuition = q.maxTuition) (hd : p.duration = q.duration) :
    (generateRecommendations p).recommendations = (generateRecommendations q).recommendations := by
  simp only [generateRecommendations, generateMockRecommendations]
  rw [hm, hd]

/-- C10 witness: two requests differing only in topics and skill level get the
same mock recommendations. -/
theorem mock_ai_noninterference_witness :
    (generateRecommendations
      { topics := ["AI"], skillLevel := some "beginner",
        duration := some "short", maxTuition := some 40000 }).recommendations =
    (generateRecommendations
      { topics := ["security", "databases"], skillLevel := some "advanced",
        duration := some "short", maxTuition := some 40000 }).recommendations :=
  mock_ai_noninterference _ _ rfl rfl

/-- C2 amended: the popular endpoint returns the first 10 of a permutation of
the collection sorted ascending by the code's popularity score (ranking
default 1000, minus acceptance rate default 50, PLUS 100 for partner courses),
projected. -/
theorem popular_ranking_order (db : List Course) :
    ∃ sorted : List Course,
      popularCoursesOf db = (sorted.take 10).map projectPopular ∧
      sorted.Perm db ∧ List.Sorted popLe sorted :=
  ⟨List.insertionSort popLe db, rfl, List.perm_insertionSort popLe db,
   List.sorted_insertionSort popLe db⟩

/-- C2 counterexample: the endpoint puts the non-partner course B before the
partner course A although A has the strictly lower spec-formula score — the
code adds 100 for partner courses instead of subtracting it. -/
theorem popular_ranking_cx :
    (popularCoursesOf [cPartner, cPlain]).map (fun pc => pc.id) = ["B", "A"] ∧
    specPopularityScore cPartner < specPopularityScore cPlain := by
  constructor
  · have hA : popularityScore cPartner = some 550 := by
      norm_num [popularityScore, cPartner, baseCourse, qIfNullZ, qIfNullQ]
    have hB : popularityScore cPlain = some 450 := by
      norm_num [popularityScore, cPlain, baseCourse, qIfNullZ, qIfNullQ]
    have hnle : ¬ popLe cPartner cPlain := by
      norm_num [popLe, hA, hB, scoreLeB]
    have hsort : List.insertionSort popLe [cPartner, cPlain] = [cPlain, cPartner] := by
      simp [List.insertionSort, List.orderedInsert, hnle]
    simp only [popularCoursesOf]
    rw [hsort]
    decide
  · norm_num [specPopularityScore, cPartner, cPlain, baseCourse]

theorem topicMatchCode_iff (topics : List String) (c : Course) :
    topicMatchCode topics c = true ↔
      ((∃ k, k ∈ c.keywords ∧ k ∈ topics) ∨
       (∃ d, c.disciplineMajor = some d ∧ d ∈ topics) ∨
       (∃ nm, c.courseName = some nm ∧ ∃ t, t ∈ topics ∧ containsCI nm t = true) ∨
       (∃ ds, c.overviewDescription = some ds ∧ ∃ t, t ∈ topics ∧ containsCI ds t = true)) := by
  unfold topicMatchCode
  rcases hd : c.disciplineMajor with _ | d <;> rcases hn : c.courseName with _ | nm <;>
    rcases hs : c.overviewDescription with _ | ds <;>
    simp [List.any_eq_true, and_assoc] <;> aesop

/-- C5 amended: the returned courses are exactly the first 10 stored courses
matching the `$or` filter: keywords and discipline by exact (case-sensitive)
membership in the topics, name and description by case-insensitive substring
of some topic; capped at 10. -/
theorem recommendation_db_match (db : List Course) (topics : List String) :
    (findMatchingCourses db topics).length ≤ 10 ∧
    findMatchingCourses db topics = (db.filter (topicMatchCode topics)).take 10 ∧
    ∀ c, c ∈ findMatchingCourses db topics →
      c ∈ db ∧
      ((∃ k, k ∈ c.keywords ∧ k ∈ topics) ∨
       (∃ d, c.disciplineMajor = some d ∧ d ∈ topics) ∨
       (∃ nm, c.courseName = some nm ∧ ∃ t, t ∈ topics ∧ containsCI nm t = true) ∨
       (∃ ds, c.overviewDescription = some ds ∧ ∃ t, t ∈ topics ∧ containsCI ds t = true)) := by
  refine ⟨?_, rfl, ?_⟩
  · show ((db.filter (topicMatchCode topics)).take 10).length ≤ 10
    rw [List.length_take]
    exact min_le_left _ _
  · intro c hc
    have hc2 : c ∈ db.filter (topicMatchCode topics) := List.mem_of_mem_take hc
    rw [List.mem_filter] at hc2
    exact ⟨hc2.1, (topicMatchCode_iff topics c).mp hc2.2⟩

/-- C5 witness: the course named "AI Basics" is returned for topic "ai" and
satisfies the amended matching disjunction. -/
theorem recommendation_db_match_witness :
    cNameMatch ∈ ([cNameMatch] : List Course) ∧
    ((∃ k, k ∈ cNameMatch.keywords ∧ k ∈ (["ai"] : List String)) ∨
     (∃ d, cNameMatch.disciplineMajor = some d ∧ d ∈ (["ai"] : List String)) ∨
     (∃ nm, cNameMatch.courseName = some nm ∧
        ∃ t, t ∈ (["ai"] : List String) ∧ containsCI nm t = true) ∨
     (∃ ds, cNameMatch.overviewDescription = some ds ∧
        ∃ t, t ∈ (["ai"] : List String) ∧ containsCI ds t = true)) :=
  (recommendation_db_match [cNameMatch] ["ai"]).2.2 cNameMatch (by decide)

/-- C5 counterexample: for topic "machine learning", a course whose keyword is
"Machine Learning" (case-insensitive substring match per the claim) is NOT
returned — keywords are matched by exact case-sensitive `$in` membership. -/
theorem recommendation_db_match_cx :
    findMatchingCourses [cKeywordOnly] ["machine learning"] = [] ∧
    specTopicMatch ["machine learning"] cKeywordOnly = true :=
  ⟨by decide, by decide⟩

theorem computeListing_fromCache (p : ListParams) (db : List Course) (r : ListResult)
    (h : computeListing p db = some r) : r.fromCache = false := by
  unfold computeListing at h
  repeat' split at h
  all_goals simp_all
  exact h.symm ▸ rfl

theorem cacheLookup_insert (c : CourseCache) (k : String) (v : ListResult) :
    cacheLookup ((k, v) :: c) k = some v := by
  simp [cacheLookup, List.find?]

/-- C1: with an empty cache, `GET /courses` answers `fromCache = false` and
stores its payload under the serialized parameter key; an immediate second
call with the same parameters answers exactly that payload with
`fromCache = true` (courses and pagination byte-equal), leaving the cache
unchanged. -/
theorem course_listing_cache_aside (p : ListParams) (db : List Course)
    (rc : ListResult × CourseCache) (h : getCourses p [] db = some rc) :
    rc.1.fromCache = false ∧
    cacheLookup rc.2 ("courses:" ++ stringifyListParams p) = some rc.1 ∧
    getCourses p rc.2 db = some ({ rc.1 with fromCache := true }, rc.2) := by
  unfold getCourses at h
  rw [show cacheLookup [] ("courses:" ++ stringifyListParams p) = none from rfl] at h
  rcases hc : computeListing p db with _ | r
  · rw [hc] at h
    simp at h
  · rw [hc] at h
    simp only [Option.some.injEq] at h
    subst h
    refine ⟨computeListing_fromCache p db r hc, cacheLookup_insert _ _ _, ?_⟩
    unfold getCourses
    rw [cacheLookup_insert]

/-- C1 witness: the cache-aside round trip at the parameterless request over
the empty collection. -/
theorem course_listing_cache_aside_witness :
    resEmptyList.fromCache = false ∧
    cacheLookup [("courses:" ++ stringifyListParams pAllNone, resEmptyList)]
      ("courses:" ++ stringifyListParams pAllNone) = some resEmptyList ∧
    getCourses pAllNone [("courses:" ++ stringifyListParams pAllNone, resEmptyList)] [] =
      some ({ resEmptyList with fromCache := true },
        [("courses:" ++ stringifyListParams pAllNone, resEmptyList)]) :=
  course_listing_cache_aside pAllNone []
    (resEmptyList, [("courses:" ++ stringifyListParams pAllNone, resEmptyList)]) (by decide)

/-- C6 amended: numeric fields `credits` and the tuition/application fees fall
back to 0 on parse failure, but `durationMonths` falls back (through the
`duration` column) to 12; optional score fields are undefined only when the
raw value is absent or empty, and a present value is `parseFloat`ed as-is
(NaN on parse failure, not undefined); boolean fields are true exactly for
the raw string "true"; list fields are split on the separator and each
element trimmed, absent values giving the empty list. -/
theorem csv_coercion (r : Row) (n now : Nat) :
    (r "credits" = none → (transform r n now).credits = 0) ∧
    (∀ s, r "credits" = some s → jsParseInt s = none → (transform r n now).credits = 0) ∧
    (r "durationMonths" = none → r "duration" = none →
      (transform r n now).durationMonths = 12) ∧
    (r "firstYearTuitionFee" = none → r "tuition" = none →
      (transform r n now).firstYearTuitionFee = 0) ∧
    (r "minimumIELTSScore" = none → (transform r n now).minimumIELTSScore = none) ∧
    (∀ s, r "minimumIELTSScore" = some s → s ≠ "" →
      (transform r n now).minimumIELTSScore = some (jsParseFloat s)) ∧
    ((transform r n now).greRequired = true ↔ r "greRequired" = some "true") ∧
    ((transform r n now).partnerCourse = true ↔ r "partnerCourse" = some "true") ∧
    ((transform r n now).applicationFeeWaived = true ↔
      r "applicationFeeWaived" = some "true") ∧
    (r "prerequisites" = none → (transform r n now).prerequisites = []) ∧
    (∀ s, r "prerequisites" = some s → s ≠ "" →
      (transform r n now).prerequisites =
        (splitOnCh ';' s.toList).map (fun l => trimStr (String.mk l))) ∧
    (∀ s, r "keywords" = some s → s ≠ "" →
      (transform r n now).keywords =
        (splitOnCh ',' s.toList).map (fun l => trimStr (String.mk l))) := by
  refine ⟨?_, ?_, ?_, ?_, ?_, ?_, ?_, ?_, ?_, ?_, ?_, ?_⟩
  · intro h
    simp [transform, jsOrZD, jsOrZ, truthyZ, pIntF, h]
  · intro s hs hp
    simp [transform, jsOrZD, jsOrZ, truthyZ, pIntF, hs, hp]
  · intro h1 h2
    simp [transform, jsOrZD, jsOrZ, truthyZ, pIntF, h1, h2]
  · intro h1 h2
    simp [transform, jsOrQD, jsOrQ, truthyQ, pFloatF, h1, h2]
  · intro h
    simp [transform, optScore, truthyS, h]
  · intro s hs hne
    simp [transform, optScore, truthyS, pFloatF, hs, hne]
  · by_cases hb : r "greRequired" = some "true" <;> simp [transform, isTrueStr, hb]
  · by_cases hb : r "partnerCourse" = some "true" <;> simp [transform, isTrueStr, hb]
  · by_cases hb : r "applicationFeeWaived" = some "true" <;> simp [transform, isTrueStr, hb]
  · intro h
    simp [transform, splitTrim, truthyS, h]
  · intro s hs hne
    simp [transform, splitTrim, truthyS, hs, hne]
  · intro s hs hne
    simp [transform, splitTrim, truthyS, hs, hne]

/-- C6 counterexample: with `durationMonths` and `duration` absent the coerced
value is 12, not the claimed 0; and a present-but-unparseable optional score
coerces to NaN (`some none`), not to undefined (`none`). -/
theorem csv_coercion_cx :
    (transform rEmptyRow 1 0).durationMonths = 12 ∧ (12 : Int) ≠ 0 ∧
    (transform rowBadScore 1 0).minimumIELTSScore = some none ∧
    some (none : Option ℚ) ≠ (none : Option (Option ℚ)) := by decide

/-- C6 witness: the amended coercion at a concrete row (absent credits give 0;
a present score column is parsed as-is). -/
theorem csv_coercion_witness :
    (transform rowBadScore 1 0).credits = 0 ∧
    (transform rowBadScore 1 0).minimumIELTSScore = some (jsParseFloat "abc") := by
  obtain ⟨h1, h2, h3, h4, h5, h6, h7, h8, h9, h10, h11, h12⟩ := csv_coercion rowBadScore 1 0
  exact ⟨h1 rfl, h6 "abc" rfl (by decide)⟩

theorem lastWrite_id : ∀ (ds : List Course) (u : String) (e : Course),
    lastWrite ds u = some e → e.uniqueId = u := by
  intro ds
  induction ds with
  | nil => intro u e h; simp [lastWrite] at h
  | cons d t ih =>
    intro u e h
    rcases ht : lastWrite t u with _ | e2 <;> simp only [lastWrite, ht] at h
    · split at h
      next hcond =>
        simp only [Option.some.injEq] at h
        subst h
        exact hcond
      next hcond => exact Option.noConfusion h
    · simp only [Option.some.injEq] at h
      subst h
      exact ih u e2 ht

theorem lastWrite_cons_ne (d : Course) (t : List Course) (v : String)
    (h : ¬ d.uniqueId = v) : lastWrite (d :: t) v = lastWrite t v := by
  rw [lastWrite]
  rcases ht : lastWrite t v with _ | e <;> simp [h]

theorem lastWrite_cons_of_some (d : Course) (t : List Course) (v : String) (e : Course)
    (h : lastWrite t v = some e) : lastWrite (d :: t) v = some e := by
  rw [lastWrite, h]

theorem lastWrite_cons_self (d : Course) (t : List Course) :
    lastWrite (d :: t) d.uniqueId = some ((lastWrite t d.uniqueId).getD d) := by
  rw [lastWrite]
  rcases ht : lastWrite t d.uniqueId with _ | e <;> simp

theorem idsOf_cons (c : Course) (t : List Course) :
    idsOf (c :: t) = c.uniqueId :: idsOf t := rfl

theorem idsOf_replaceFirst (d : Course) : ∀ db : List Course,
    idsOf (replaceFirst db d) = idsOf db := by
  intro db
  induction db with
  | nil => rfl
  | cons c t ih =>
    rw [replaceFirst]
    by_cases h : c.uniqueId = d.uniqueId
    · rw [if_pos h, idsOf_cons, idsOf_cons, h]
    · rw [if_neg h, idsOf_cons, idsOf_cons, ih]

theorem mem_idsOf (u : String) (db : List Course) :
    u ∈ idsOf db ↔ ∃ c, c ∈ db ∧ c.uniqueId = u := by
  simp [idsOf]

theorem replaceFirst_map (t : List Course) (d : Course) : ∀ db : List Course,
    (idsOf db).Nodup → d.uniqueId ∈ idsOf db →
    (replaceFirst db d).map (fun c => (lastWrite t c.uniqueId).getD c)
      = db.map (fun c => (lastWrite (d :: t) c.uniqueId).getD c) := by
  intro db
  induction db with
  | nil => intro _ hmem; simp [idsOf] at hmem
  | cons c db2 ih =>
    intro hnd hmem
    have hnd2 : (idsOf db2).Nodup := by
      have h2 := hnd
      rw [idsOf_cons, List.nodup_cons] at h2
      exact h2.2
    have hcnotin : c.uniqueId ∉ idsOf db2 := by
      have h2 := hnd
      rw [idsOf_cons, List.nodup_cons] at h2
      exact h2.1
    by_cases h : c.uniqueId = d.uniqueId
    · have hrf : replaceFirst (c :: db2) d = d :: db2 := by
        rw [replaceFirst, if_pos h]
      rw [hrf]
      simp only [List.map_cons]
      congr 1
      · show (lastWrite t d.uniqueId).getD d = (lastWrite (d :: t) c.uniqueId).getD c
        rw [h, lastWrite_cons_self]
        simp
      · apply List.map_congr_left
        intro a ha
        have hne : ¬ d.uniqueId = a.uniqueId := by
          intro he
          apply hcnotin
          rw [h, he]
          exact (mem_idsOf a.uniqueId db2).mpr ⟨a, ha, rfl⟩
        show (lastWrite t a.uniqueId).getD a = (lastWrite (d :: t) a.uniqueId).getD a
        rw [lastWrite_cons_ne d t a.uniqueId hne]
    · have hrf : replaceFirst (c :: db2) d = c :: replaceFirst db2 d := by
        rw [replaceFirst, if_neg h]
      rw [hrf]
      simp only [List.map_cons]
      congr 1
      · show (lastWrite t c.uniqueId).getD c = (lastWrite (d :: t) c.uniqueId).getD c
        rw [lastWrite_cons_ne d t c.uniqueId (fun he => h he.symm)]
      · apply ih hnd2
        rcases (mem_idsOf d.uniqueId (c :: db2)).mp hmem with ⟨c2, hc2, he⟩
        rcases List.mem_cons.mp hc2 with rfl | hc3
        · exact absurd he h
        · exact (mem_idsOf d.uniqueId db2).mpr ⟨c2, hc3, he⟩

theorem idsOf_append (a b : List Course) : idsOf (a ++ b) = idsOf a ++ idsOf b := by
  simp [idsOf]

theorem lastWrite_getD_id (t : List Course) (d : Course) :
    ((lastWrite t d.uniqueId).getD d).uniqueId = d.uniqueId := by
  rcases h : lastWrite t d.uniqueId with _ | e
  · simp
  · simp [lastWrite_id t d.uniqueId e h]

theorem idsOf_map_write (ds db : List Course) :
    idsOf (db.map (fun c => (lastWrite ds c.uniqueId).getD c)) = idsOf db := by
  unfold idsOf
  rw [List.map_map]
  apply List.map_congr_left
  intro a _
  show ((lastWrite ds a.uniqueId).getD a).uniqueId = a.uniqueId
  exact lastWrite_getD_id ds a

theorem applyUpserts_nf : ∀ (ds db : List Course), (idsOf db).Nodup →
    applyUpserts db ds
      = db.map (fun c => (lastWrite ds c.uniqueId).getD c) ++ tailNew ds (idsOf db) := by
  intro ds
  induction ds with
  | nil =>
    intro db _
    simp [applyUpserts, lastWrite, tailNew]
  | cons d t ih =>
    intro db hnd
    rw [show applyUpserts db (d :: t) = applyUpserts (upsertCourse db d).1 t from rfl]
    by_cases hmem : d.uniqueId ∈ idsOf db
    · have hup : (upsertCourse db d).1 = replaceFirst db d := by
        simp [upsertCourse, hmem]
      rw [hup, ih (replaceFirst db d) (by rw [idsOf_replaceFirst]; exact hnd),
        idsOf_replaceFirst, replaceFirst_map t d db hnd hmem]
      rw [show tailNew (d :: t) (idsOf db) = tailNew t (idsOf db) from by
        rw [tailNew, if_pos hmem]]
    · have hup : (upsertCourse db d).1 = db ++ [d] := by
        simp [upsertCourse, hmem]
      have hnd2 : (idsOf (db ++ [d])).Nodup := by
        rw [idsOf_append, show idsOf [d] = [d.uniqueId] from rfl, List.nodup_append]
        refine ⟨hnd, List.nodup_singleton _, ?_⟩
        intro x hx hx2
        simp only [List.mem_singleton] at hx2
        exact hmem (hx2 ▸ hx)
      rw [hup, ih (db ++ [d]) hnd2, idsOf_append]
      rw [show tailNew (d :: t) (idsOf db)
          = ((lastWrite t d.uniqueId).getD d) :: tailNew t (idsOf db ++ idsOf [d]) from by
        rw [tailNew, if_neg hmem]
        rfl]
      rw [List.map_append, List.append_assoc]
      congr 1
      · apply List.map_congr_left
        intro a ha
        have hne : ¬ d.uniqueId = a.uniqueId := by
          intro he
          apply hmem
          rw [he]
          exact (mem_idsOf a.uniqueId db).mpr ⟨a, ha, rfl⟩
        show (lastWrite t a.uniqueId).getD a = (lastWrite (d :: t) a.uniqueId).getD a
        rw [lastWrite_cons_ne d t a.uniqueId hne]

theorem tailNew_seen : ∀ (ds : List Course) (seen : List String),
    (∀ d ∈ ds, d.uniqueId ∈ seen) → tailNew ds seen = [] := by
  intro ds
  induction ds with
  | nil => intro seen _; rfl
  | cons d t ih =>
    intro seen hall
    rw [tailNew, if_pos (hall d (List.mem_cons_self d t))]
    exact ih seen (fun x hx => hall x (List.mem_cons_of_mem d hx))

theorem mem_ids_tailNew : ∀ (ds : List Course) (seen : List String) (d : Course),
    d ∈ ds → d.uniqueId ∈ seen ++ idsOf (tailNew ds seen) := by
  intro ds
  induction ds with
  | nil => intro seen d h; cases h
  | cons d0 t ih =>
    intro seen d h
    rcases List.mem_cons.mp h with rfl | h2
    · by_cases hm : d.uniqueId ∈ seen
      · exact List.mem_append_left _ hm
      · rw [tailNew, if_neg hm]
        apply List.mem_append_right
        rw [idsOf_cons, lastWrite_getD_id]
        exact List.mem_cons_self _ _
    · by_cases hm : d0.uniqueId ∈ seen
      · rw [tailNew, if_pos hm]
        exact ih seen d h2
      · rw [tailNew, if_neg hm]
        have hrec := ih (seen ++ [d0.uniqueId]) d h2
        rw [idsOf_cons, lastWrite_getD_id]
        simp only [List.append_assoc, List.singleton_append] at hrec
        simpa using hrec

theorem nodup_seen_tailNew : ∀ (ds : List Course) (seen : List String),
    seen.Nodup → (seen ++ idsOf (tailNew ds seen)).Nodup := by
  intro ds
  induction ds with
  | nil => intro seen h; simpa [tailNew, idsOf]
  | cons d t ih =>
    intro seen h
    by_cases hm : d.uniqueId ∈ seen
    · rw [tailNew, if_pos hm]
      exact ih seen h
    · rw [tailNew, if_neg hm]
      rw [idsOf_cons, lastWrite_getD_id]
      have hsn : (seen ++ [d.uniqueId]).Nodup := by
        simp [List.nodup_append, h, hm]
      have hrec := ih (seen ++ [d.uniqueId]) hsn
      simp only [List.append_assoc, List.singleton_append] at hrec
      simpa using hrec

theorem tailNew_mem_lastWrite : ∀ (ds : List Course) (seen : List String) (c : Course),
    c ∈ tailNew ds seen → lastWrite ds c.uniqueId = some c := by
  intro ds
  induction ds with
  | nil => intro seen c h; simp [tailNew] at h
  | cons d t ih =>
    intro seen c h
    by_cases hm : d.uniqueId ∈ seen
    · rw [tailNew, if_pos hm] at h
      exact lastWrite_cons_of_some d t c.uniqueId c (ih seen c h)
    · rw [tailNew, if_neg hm] at h
      rcases List.mem_cons.mp h with rfl | h2
      · rw [lastWrite_getD_id t d, lastWrite_cons_self]
      · exact lastWrite_cons_of_some d t c.uniqueId c (ih (seen ++ [d.uniqueId]) c h2)

theorem applyUpserts_ids (ds db : List Course) (hnd : (idsOf db).Nodup) :
    idsOf (applyUpserts db ds) = idsOf db ++ idsOf (tailNew ds (idsOf db)) := by
  rw [applyUpserts_nf ds db hnd, idsOf_append, idsOf_map_write]

theorem applyUpserts_idem (ds db : List Course) (hnd : (idsOf db).Nodup) :
    applyUpserts (applyUpserts db ds) ds = applyUpserts db ds := by
  have hnd1 : (idsOf (applyUpserts db ds)).Nodup := by
    rw [applyUpserts_ids ds db hnd]
    exact nodup_seen_tailNew ds (idsOf db) hnd
  rw [applyUpserts_nf ds (applyUpserts db ds) hnd1]
  have hall : ∀ d ∈ ds, d.uniqueId ∈ idsOf (applyUpserts db ds) := by
    intro d hd
    rw [applyUpserts_ids ds db hnd]
    exact mem_ids_tailNew ds (idsOf db) d hd
  rw [tailNew_seen ds _ hall, List.append_nil]
  have hfix : ∀ c ∈ applyUpserts db ds, (lastWrite ds c.uniqueId).getD c = c := by
    intro c hc
    rw [applyUpserts_nf ds db hnd] at hc
    rcases List.mem_append.mp hc with hc1 | hc2
    · rcases List.mem_map.mp hc1 with ⟨x, hx, he⟩
      rcases hlw : lastWrite ds x.uniqueId with _ | e
      · rw [hlw] at he
        simp only [Option.getD_none] at he
        subst he
        rw [hlw]
        simp
      · rw [hlw] at he
        simp only [Option.getD_some] at he
        subst he
        rw [lastWrite_id ds x.uniqueId e hlw, hlw]
        simp
    · rw [tailNew_mem_lastWrite ds (idsOf db) c hc2]
      simp
  calc (applyUpserts db ds).map (fun c => (lastWrite ds c.uniqueId).getD c)
      = (applyUpserts db ds).map (fun c => c) := List.map_congr_left hfix
    _ = applyUpserts db ds := by simp

theorem insertsOf_zero : ∀ (ds db : List Course),
    (∀ d ∈ ds, d.uniqueId ∈ idsOf db) → insertsOf db ds = 0 := by
  intro ds
  induction ds with
  | nil => intro db _; rfl
  | cons d t ih =>
    intro db hall
    have hm := hall d (List.mem_cons_self d t)
    rw [insertsOf, if_pos hm]
    have hup : (upsertCourse db d).1 = replaceFirst db d := by
      simp [upsertCourse, hm]
    rw [hup, ih (replaceFirst db d) (by
      intro x hx
      rw [idsOf_replaceFirst]
      exact hall x (List.mem_cons_of_mem d hx))]

theorem uniqueIdOf_key_indep (r : Row) (n now1 now2 : Nat) (h : hasNaturalKey r = true) :
    uniqueIdOf r n now1 = uniqueIdOf r n now2 := by
  unfold uniqueIdOf jsOrS
  cases h1 : truthyS (r "uniqueId")
  · cases h2 : truthyS (r "course_id")
    · exfalso
      simp [hasNaturalKey, h1, h2] at h
    · simp [h1, h2]
  · simp [h1]

theorem transform_key_indep (r : Row) (n now1 now2 : Nat) (h : hasNaturalKey r = true) :
    transform r n now1 = transform r n now2 := by
  unfold transform
  rw [uniqueIdOf_key_indep r n now1 now2 h]

theorem validData_key_indep (rows : List Row) (now1 now2 : Nat)
    (h : ∀ r ∈ rows, hasNaturalKey r = true) :
    ∀ p, validData now1 rows p = validData now2 rows p := by
  induction rows with
  | nil => intro p; rfl
  | cons r t ih =>
    intro p
    have hr := h r (List.mem_cons_self r t)
    have ht : ∀ x ∈ t, hasNaturalKey x = true := fun x hx => h x (List.mem_cons_of_mem r hx)
    simp only [validData]
    rw [transform_key_indep r (p + 1) now1 now2 hr]
    rcases hv : validateCourse (transform r (p + 1) now2) with _ | m <;>
      simp only [hv] <;> rw [ih ht (p + 1)]

/-- C4 amended: when every CSV row carries a natural key (truthy `uniqueId` or
`course_id`) and the collection's unique-id index is respected, re-ingesting
the same file (at any later timestamp) leaves the stored records unchanged,
performs zero inserts (all updates), and the aggregate statistics are
identical.  Without a natural key, the generated id embeds the upload
timestamp and idempotence fails (see the counterexample). -/
theorem ingest_idempotent (rows : List Row) (db0 : List Course) (now1 now2 : Nat)
    (hk : ∀ r ∈ rows, hasNaturalKey r = true)
    (hnd : (idsOf db0).Nodup) :
    (uploadCsv rows now2 (uploadCsv rows now1 db0).db).db = (uploadCsv rows now1 db0).db ∧
    (uploadCsv rows now2 (uploadCsv rows now1 db0).db).inserts = 0 ∧
    statsSummary (uploadCsv rows now2 (uploadCsv rows now1 db0).db).db
      = statsSummary (uploadCsv rows now1 db0).db := by
  have hdb1 : (uploadCsv rows now1 db0).db = applyUpserts db0 (validData now1 rows 0) := by
    show (ingestRows now1 rows ⟨db0, 0, 0, 0, []⟩).db = _
    rw [ingestRows_db]
  have hvd : validData now2 rows 0 = validData now1 rows 0 :=
    validData_key_indep rows now2 now1 hk 0
  have hdb2 : (uploadCsv rows now2 (uploadCsv rows now1 db0).db).db
      = applyUpserts (applyUpserts db0 (validData now1 rows 0)) (validData now1 rows 0) := by
    show (ingestRows now2 rows ⟨(uploadCsv rows now1 db0).db, 0, 0, 0, []⟩).db = _
    rw [ingestRows_db]
    show applyUpserts (uploadCsv rows now1 db0).db (validData now2 rows 0) = _
    rw [hvd, hdb1]
  have hmain : applyUpserts (applyUpserts db0 (validData now1 rows 0)) (validData now1 rows 0)
      = applyUpserts db0 (validData now1 rows 0) :=
    applyUpserts_idem (validData now1 rows 0) db0 hnd
  have hall : ∀ d ∈ validData now1 rows 0, d.uniqueId ∈ idsOf ((uploadCsv rows now1 db0).db) := by
    intro d hd
    rw [hdb1, applyUpserts_ids _ db0 hnd]
    exact mem_ids_tailNew _ (idsOf db0) d hd
  refine ⟨?_, ?_, ?_⟩
  · rw [hdb2, hmain, hdb1]
  · show (ingestRows now2 rows ⟨(uploadCsv rows now1 db0).db, 0, 0, 0, []⟩).inserts = 0
    rw [ingestRows_inserts]
    show 0 + insertsOf (uploadCsv rows now1 db0).db (validData now2 rows 0) = 0
    rw [hvd]
    simp [insertsOf_zero _ _ hall]
  · rw [hdb2, hmain, hdb1]

/-- C4 witness: re-ingesting a one-row keyed CSV at a later timestamp changes
nothing and inserts nothing. -/
theorem ingest_idempotent_witness :
    (uploadCsv [rowKeyed] 1 (uploadCsv [rowKeyed] 0 []).db).db
      = (uploadCsv [rowKeyed] 0 []).db ∧
    (uploadCsv [rowKeyed] 1 (uploadCsv [rowKeyed] 0 []).db).inserts = 0 ∧
    statsSummary (uploadCsv [rowKeyed] 1 (uploadCsv [rowKeyed] 0 []).db).db
      = statsSummary (uploadCsv [rowKeyed] 0 []).db := by
  apply ingest_idempotent
  · intro r hr
    simp only [List.mem_singleton] at hr
    subst hr
    decide
  · decide

/-- C4 counterexample: a valid row without `uniqueId`/`course_id` gets a
timestamp-based generated id, so re-ingesting the same file at a later
timestamp inserts a second record instead of updating — the claim fails for
such CSV files. -/
theorem ingest_idempotent_cx :
    (uploadCsv [rowKeyless] 1 (uploadCsv [rowKeyless] 0 []).db).inserts = 1 ∧
    (uploadCsv [rowKeyless] 1 (uploadCsv [rowKeyless] 0 []).db).db
      ≠ (uploadCsv [rowKeyless] 0 []).db :=
  ⟨by decide, by decide⟩
